import Mathlib

namespace MavlinkLog

/-!
Verification of the dynamic schema inference and time-series query engine
of the MavlinkLog repository (src/core.py), against its natural-language
specification.  Python scalars are embedded as exact values: `int`/`float`
become `Rat` (the logged quantities are small integers and decimal floats;
every comparison made by the code is modelled exactly), strings carry the
result of the external Python `float` builtin alongside their text, and
SQL `NULL`/pandas `NaN` cells are `Option.none`.
-/

/-- A scalar cell value as it sits in a materialized table.
`num x` is a Python `int` or `float` with exact value `x`;
`vstr s parsed` is a string `s` together with the outcome of the Python
builtin `float(s)` (`parsed = some x` when the parse succeeds with value
`x`, `none` when `float` raises) — the decimal-string parser is a Python
builtin external to this repository, so its verdict is carried as data;
`other` is any other non-null Python object. -/
inductive Val where
  | num (x : Rat)
  | vstr (s : String) (parsed : Option Rat)
  | other
deriving DecidableEq, Repr

/-- The numeric coercion performed inside `detect_numeric_columns`
(src/core.py lines 176-185): `int`/`float` values coerce to themselves,
strings coerce when `float(s)` succeeds, anything else is dropped. -/
def coerce? : Val → Option Rat
  | .num x => some x
  | .vstr _ p => p
  | .other => none

/-- A materialized table of the SQLite store: its name, its column names in
stored order, and its rows (each row aligned with `columns`; a `none` cell
is SQL NULL).  Rows written by the materializer are always exactly
`columns.length` wide. -/
structure Table where
  name : String
  columns : List String
  rows : List (List (Option Val))
deriving DecidableEq, Repr

/-- `np.var`: population variance (ddof = 0), computed exactly over `Rat`.
(The guard `|V| ≥ 5` in the classifier keeps the empty case unreachable.) -/
def popVar (xs : List Rat) : Rat :=
  let n : Rat := xs.length
  let m : Rat := xs.sum / n
  (xs.map (fun x => (x - m) ^ 2)).sum / n

/-- The non-null values of column `i` among the first `sample_size` rows:
`values = [row[i] for row in rows if row[i] is not None]` after
`SELECT * FROM t LIMIT sample_size` (src/core.py lines 157-169). -/
def sampleColumn (t : Table) (sample_size i : Nat) : List Val :=
  (t.rows.take sample_size).filterMap (fun r => r.getD i none)

/-- The per-column test of `detect_numeric_columns` (src/core.py lines
171-192): at least 5 non-null sampled values, at least 80 percent of them
coercible to float (`len(numeric_values) >= len(values) * 0.8`; the float
multiplication by `0.8` is modelled exactly in `Rat` — for sample counts
the rounding of `0.8` never crosses an integer boundary, so the
comparisons agree), more than one distinct coerced value, and strictly
positive population variance. -/
def columnQualifies (values : List Val) : Bool :=
  if values.length < 5 then false
  else
    let numeric := values.filterMap coerce?
    if (values.length : Rat) * (4 / 5) ≤ (numeric.length : Rat) then
      if 1 < numeric.dedup.length then
        decide (0 < popVar numeric)
      else false
    else false

/-- `detect_numeric_columns` (src/core.py lines 146-197): sample a prefix of
up to `sample_size` rows, return (in stored column order) the names of the
columns that pass `columnQualifies`.  An empty sample returns the empty
list at once. -/
def detect_numeric_columns (t : Table) (sample_size : Nat) : List String :=
  if (t.rows.take sample_size).isEmpty then []
  else
    (t.columns.enum.filter
      (fun p => columnQualifies (sampleColumn t sample_size p.1))).map Prod.snd

/-- The qualification condition exactly as the specification words it
(spec 4.3): `|V| ≥ 5`, `|N| ≥ 0.8 × |V|` with `N` the coercible subset,
more than one distinct coerced value, population variance strictly
positive. -/
def specNumericCond (values : List Val) : Prop :=
  5 ≤ values.length ∧
  (values.length : Rat) * (4 / 5) ≤ ((values.filterMap coerce?).length : Rat) ∧
  1 < (values.filterMap coerce?).dedup.length ∧
  0 < popVar (values.filterMap coerce?)

instance (values : List Val) : Decidable (specNumericCond values) := by
  unfold specNumericCond
  infer_instance

/-- Five identical numeric values: constant column. -/
def constTable5 : Table := ⟨"T1", ["c"], List.replicate 5 [some (.num 7)]⟩

/-- Only four non-null values. -/
def fourValTable : Table :=
  ⟨"T2", ["c"], [[some (.num 1)], [some (.num 2)], [some (.num 3)], [some (.num 4)]]⟩

/-- Five non-null values of which exactly four (80 percent) coerce to
float, with more than one distinct value. -/
def boundaryTable : Table :=
  ⟨"T3", ["c"],
    [[some (.num 1)], [some (.num 2)], [some (.num 3)], [some (.num 4)],
     [some (.vstr "x" none)]]⟩

/-! ## String helpers

Lean 4.14 core string functions (`String.toLower`, substring search) do
not reduce in the kernel, so the Python operations used by the code are
modelled directly over the character list of a `String`. -/

/-- Python `str.lower()` (ASCII, which covers every pattern and column
name the code handles). -/
def pyLower (s : String) : String := ⟨s.data.map Char.toLower⟩

/-- Does the second list occur as a leading block of the first list? -/
def charsStart : List Char → List Char → Bool
  | [], _ => true
  | _ :: _, [] => false
  | p :: ps, c :: cs => p = c && charsStart ps cs

/-- Does `pat` occur contiguously anywhere inside `hay`?  (Python
`pat in hay` on strings.) -/
def charsContain : List Char → List Char → Bool
  | hay@(_ :: t), pat => charsStart pat hay || charsContain t pat
  | [], pat => pat.isEmpty

/-- Python `pattern.lower() in col.lower()` (src/core.py line 291). -/
def strContainsCI (col pat : String) : Bool :=
  charsContain (pyLower col).data (pyLower pat).data

/-! ## Time Column Resolver -/

/-- The prioritized time patterns of `get_time_column`
(src/core.py line 287). -/
def time_patterns : List String := ["TimeUS", "timestamp", "time_boot_ms", "time", "Time"]

/-- The nested loop of `get_time_column` (src/core.py lines 289-292): for
each pattern in priority order, return the first column (in stored order)
whose name contains the pattern case-insensitively. -/
def findTimeIn : List String → List String → Option String
  | [], _ => none
  | p :: ps, cols =>
    match cols.find? (fun col => strContainsCI col p) with
    | some c => some c
    | none => findTimeIn ps cols

/-- `get_time_column` applied to a table's column list. -/
def get_time_column (cols : List String) : Option String :=
  findTimeIn time_patterns cols

/-- `get_time_column(conn, table_name)` (src/core.py lines 277-298): the
columns come from `PRAGMA table_info`, which yields no rows for a
non-existent table, and any exception during introspection is caught and
mapped to `None`; both cases are the empty column list here. -/
def get_time_column_store (store : List Table) (table_name : String) : Option String :=
  match store.find? (fun t => t.name == table_name) with
  | some t => get_time_column t.columns
  | none => get_time_column []

/-- A store with one table that has no time-shaped column. -/
def noTimeStore : List Table := [⟨"GPS", ["Alt", "Spd"], [[some (.num 1), some (.num 2)]]⟩]

/-! ## Semantic Annotator -/

/-- The ordered pattern table of `infer_units_and_descriptions`
(src/core.py lines 206-267): each entry is
`(substring, (unit, description))`, in the written (= Python dict
insertion) order. -/
def unitPatterns : List (String × String × String) :=
  [("roll", "degrees", "Roll angle"),
   ("pitch", "degrees", "Pitch angle"),
   ("yaw", "degrees", "Yaw angle"),
   ("rollspeed", "deg/s", "Roll angular velocity"),
   ("pitchspeed", "deg/s", "Pitch angular velocity"),
   ("yawspeed", "deg/s", "Yaw angular velocity"),
   ("lat", "degrees", "Latitude"),
   ("lng", "degrees", "Longitude"),
   ("lon", "degrees", "Longitude"),
   ("alt", "meters", "Altitude"),
   ("relalt", "meters", "Relative altitude"),
   ("vx", "m/s", "Velocity X"),
   ("vy", "m/s", "Velocity Y"),
   ("vz", "m/s", "Velocity Z"),
   ("vel", "m/s", "Velocity"),
   ("speed", "m/s", "Speed"),
   ("groundspeed", "m/s", "Ground speed"),
   ("airspeed", "m/s", "Air speed"),
   ("accx", "m/s²", "Acceleration X"),
   ("accy", "m/s²", "Acceleration Y"),
   ("accz", "m/s²", "Acceleration Z"),
   ("acc", "m/s²", "Acceleration"),
   ("gyrx", "deg/s", "Angular rate X"),
   ("gyry", "deg/s", "Angular rate Y"),
   ("gyrz", "deg/s", "Angular rate Z"),
   ("p", "deg/s", "Roll rate"),
   ("q", "deg/s", "Pitch rate"),
   ("r", "deg/s", "Yaw rate"),
   ("volt", "V", "Voltage"),
   ("curr", "A", "Current"),
   ("bat", "V", "Battery voltage"),
   ("power", "W", "Power"),
   ("press", "Pa", "Pressure"),
   ("baro", "m", "Barometric altitude"),
   ("temp", "°C", "Temperature"),
   ("thr", "%", "Throttle"),
   ("throttle", "%", "Throttle"),
   ("rud", "%", "Rudder"),
   ("ele", "%", "Elevator"),
   ("ail", "%", "Aileron"),
   ("timeus", "μs", "Time (microseconds)"),
   ("timestamp", "s", "Timestamp"),
   ("time", "s", "Time")]

/-- Python `column_name.replace('_', ' ')` for the single-character
pattern the code uses. -/
def underscoresToSpaces (s : String) : String :=
  ⟨s.data.map (fun c => if c = '_' then ' ' else c)⟩

/-- Python `str.title()` over ASCII: an alphabetic character is
upper-cased when the previous character is not alphabetic and lower-cased
otherwise; other characters pass through and reset the word boundary. -/
def titleChars : List Char → Bool → List Char
  | [], _ => []
  | c :: cs, prevAlpha =>
    (if c.isAlpha then (if prevAlpha then c.toLower else c.toUpper) else c) ::
      titleChars cs c.isAlpha

def pyTitle (s : String) : String := ⟨titleChars s.data false⟩

/-- `infer_units_and_descriptions` (src/core.py lines 199-275): lower-case
the column name, return the payload of the first pattern occurring as a
substring, else fall back to no unit and the title-cased name with
underscores replaced by spaces.  (The source tests `pattern in col_lower`
with already-lowercase patterns.) -/
def infer_units_and_descriptions (column_name : String) : String × String :=
  match unitPatterns.find? (fun e => charsContain (pyLower column_name).data e.1.data) with
  | some e => e.2
  | none => ("", pyTitle (underscoresToSpaces column_name))

/-! ## Time Normalizer -/

/-- Python `f"{n:02d}"`: zero-pad the decimal rendering to width 2 (a
single digit gains a leading zero; anything already two characters wide,
including negatives, passes through). -/
def pad2 (n : Int) : String :=
  if 0 ≤ n ∧ n < 10 then "0" ++ toString n else toString n

/-- The inner `format_time` of `convert_timeus_to_datetime_and_format`
(src/core.py lines 359-362): `minutes = int(sec // 60)` and
`seconds_remainder = int(sec % 60)`, rendered
`f"{minutes}:{seconds_remainder:02d}"`.  Python float floor-division is
the floor, `sec % 60` is `sec - 60 * (sec // 60)` and always lies in
`[0, 60)`, so the truncation `int(...)` is the floor as well. -/
def format_time (sec : Rat) : String :=
  toString (⌊sec / 60⌋ : Int) ++ ":" ++ pad2 ⌊sec - 60 * ((⌊sec / 60⌋ : Int) : Rat)⌋

/-- `convert_timeus_to_datetime_and_format` per element (src/core.py lines
347-366): seconds = value / 1_000_000; the datetime column holds
epoch + seconds (`pd.to_datetime(seconds, unit='s')`), represented here by
its elapsed seconds since the epoch; the formatted column holds the MM:SS
string. -/
def convert_timeus_to_datetime_and_format (v : Rat) : Rat × String :=
  (v / 1000000, format_time (v / 1000000))

/-- pandas `pd.to_datetime` applied to an integer with no `unit` argument
interprets it as nanoseconds since the epoch (pandas default `unit='ns'`);
represented by the resulting elapsed seconds since the epoch.  This is the
non-microsecond branch of `get_chart_data` (src/core.py line 401). -/
def pd_to_datetime_int (v : Int) : Rat := (v : Rat) / 1000000000

/-- The per-element time handling of `get_chart_data` (src/core.py lines
393-403) on an integer-valued raw time column: the branch test is
`'timeus' in time_col.lower()`; the microsecond branch divides by 1e6 and
formats MM:SS, the other branch sets `datetime = pd.to_datetime(raw)` and
`time_formatted = str(raw)`.  Result: (datetime as seconds since the
epoch, formatted string). -/
def chartTimeOfInt (time_col : String) (v : Int) : Rat × String :=
  if strContainsCI time_col "timeus" then
    convert_timeus_to_datetime_and_format (v : Rat)
  else
    (pd_to_datetime_int v, toString v)

/-! ## Attribute Catalog Builder -/

/-- The per-table Attribute Descriptor
(`dynamic_attrs[table_name]`, src/core.py lines 335-341). -/
structure AttrDescriptor where
  time_col : String
  attributes : List String
  units : List (String × String)
  descriptions : List (String × String)
  row_count : Nat
deriving DecidableEq, Repr

/-- `detect_numeric_columns(conn, table_name)` resolved through the store
by table name; a missing table raises inside the function body and the
blanket handler returns the empty list (src/core.py lines 194-197). -/
def detect_numeric_columns_store (store : List Table) (table_name : String) : List String :=
  match store.find? (fun t => t.name == table_name) with
  | some t => detect_numeric_columns t 100
  | none => []

/-- The loop body of `get_all_dynamic_attributes` (src/core.py lines
308-341) for one schema table: skip on zero rows, skip on a falsy time
column (`None` or the empty string), skip when no numeric column is
detected, skip when removing the time column leaves no attribute;
otherwise emit `(table_name, descriptor)`.  The Python locals
`numeric_cols` and `attributes` are inlined. -/
def buildDescriptor (store : List Table) (t : Table) : Option (String × AttrDescriptor) :=
  if t.rows.length = 0 then none
  else
    match get_time_column_store store t.name with
    | none => none
    | some tc =>
      if tc = "" then none
      else if (detect_numeric_columns_store store t.name).isEmpty then none
      else if ((detect_numeric_columns_store store t.name).filter
          (fun col => col ≠ tc)).isEmpty then none
      else
        some (t.name,
          { time_col := tc
            attributes := (detect_numeric_columns_store store t.name).filter
              (fun col => col ≠ tc)
            units := ((detect_numeric_columns_store store t.name).filter
              (fun col => col ≠ tc)).map
                (fun a => (a, (infer_units_and_descriptions a).1))
            descriptions := ((detect_numeric_columns_store store t.name).filter
              (fun col => col ≠ tc)).map
                (fun a => (a, (infer_units_and_descriptions a).2))
            row_count := t.rows.length })

/-- `get_all_dynamic_attributes` (src/core.py lines 300-345): apply the
loop body to every table of the schema (one per stored table). -/
def get_all_dynamic_attributes (store : List Table) : List (String × AttrDescriptor) :=
  store.filterMap (buildDescriptor store)

/-- A concrete store: a qualifying table and a zero-row table. -/
def catalogStore : List Table :=
  [⟨"ATT", ["TimeUS", "Roll"],
     [[some (.num 1000000), some (.num 1)],
      [some (.num 2000000), some (.num 2)],
      [some (.num 3000000), some (.num 3)],
      [some (.num 4000000), some (.num 4)],
      [some (.num 5000000), some (.num 5)]]⟩,
   ⟨"EMPTY", ["TimeUS"], []⟩]

/-! ## Query and Statistics Engine -/

instance : Std.Antisymm (fun (a b : Rat) => a ≤ b) :=
  ⟨fun h1 h2 => le_antisymm h1 h2⟩

/-- The numeric content of a pandas cell: columns reaching the statistics
and chart arithmetic are numeric (REAL/INTEGER) columns, whose non-null
cells are `Val.num`; any other non-null content makes the pandas
aggregation raise, which the code's blanket handler turns into the tagged
error result. -/
def valNum? : Val → Option Rat
  | .num x => some x
  | _ => none

/-- The cells of column `c` over the given rows, by stored column index
(a missing column never reaches this point: the SQL select fails first). -/
def colCells (t : Table) (c : String) : List (Option Val) :=
  t.rows.map (fun r => r.getD (t.columns.indexOf c) none)

/-- The non-null values of a numeric column, or `none` when a non-null
cell is not numeric (pandas raises on object-dtype aggregation). -/
def colNums? (cells : List (Option Val)) : Option (List Rat) :=
  (cells.filterMap id).mapM valNum?

/-- The per-attribute record of `calculate_data_statistics`
(src/core.py lines 434-440).  pandas skips nulls: `count` is the non-null
count, the aggregates run over the non-null values; an aggregate of an
empty column is NaN (`none` here).  `stdSq` is the square of the reported
sample standard deviation (`df.std()`, ddof = 1) — the code stores its
float square root; the square is carried so the record stays exact. -/
structure ColStats where
  mean : Option Rat
  stdSq : Option Rat
  min : Option Rat
  max : Option Rat
  count : Nat
deriving DecidableEq, Repr

def statsOf (nums : List Rat) : ColStats :=
  { mean := if nums.length = 0 then none else some (nums.sum / (nums.length : Rat))
    stdSq := if nums.length < 2 then none else
      some ((nums.map (fun x => (x - nums.sum / (nums.length : Rat)) ^ 2)).sum /
        ((nums.length : Rat) - 1))
    min := nums.min?
    max := nums.max?
    count := nums.length }

/-- `calculate_data_statistics` (src/core.py lines 417-446): select the
requested columns, fail with the tagged error on an SQL failure (empty
select list, unknown table, unknown column), fail with "No data found" on
an empty result set, and otherwise aggregate each attribute.  The guard
`if attr in df.columns` is mirrored by including every requested
attribute: the result set's columns are exactly the requested ones, so no
attribute is ever absent.  Duplicate requested columns make
`float(df[attr].mean())` raise on the duplicate-labelled frame, and a
non-numeric column makes the aggregation raise; both are caught by the
blanket handler and returned as tagged errors. -/
def calculate_data_statistics (store : List Table) (message_type : String)
    (attributes : List String) : Except String (List (String × ColStats)) :=
  if attributes.isEmpty then .error "SQL error: empty select list"
  else
    match store.find? (fun t => t.name == message_type) with
    | none => .error ("no such table: " ++ message_type)
    | some t =>
      if h : ∃ a ∈ attributes, a ∉ t.columns then
        .error "no such column"
      else if t.rows.isEmpty then .error "No data found"
      else if hdup : ¬ attributes.Nodup then
        .error "duplicate columns"
      else
        match attributes.mapM
            (fun a => (colNums? (colCells t a)).map (fun nums => (a, statsOf nums))) with
        | some l => .ok l
        | none => .error "non-numeric column"

/-- A one-column, three-row store realizing the claim's example
`[1.0, 2.0, 3.0]`. -/
def statsTable : Table := ⟨"M", ["x"], [[some (.num 1)], [some (.num 2)], [some (.num 3)]]⟩

def statsStore : List Table := [statsTable]

/-! ## Chart data (get_chart_data) -/

/-- The `LIMIT` clause of `get_chart_data` (src/core.py lines 384-385):
`if limit:` — a zero limit is falsy in Python and applies no cap. -/
def limitRows (limit : Option Nat) (rows : List (List (Option Val))) :
    List (List (Option Val)) :=
  match limit with
  | some n => if n = 0 then rows else rows.take n
  | none => rows

/-- Projection of the selected columns `[time_col] + attributes`, in
request order, out of the stored rows. -/
def selectCols (t : Table) (cols : List String) (rows : List (List (Option Val))) :
    List (List (Option Val)) :=
  rows.map (fun r => cols.map (fun c => r.getD (t.columns.indexOf c) none))

/-- The raw time column of the selected frame. -/
def timeCells (t : Table) (time_col : String) (rows : List (List (Option Val))) :
    List (Option Val) :=
  rows.map (fun r => r.getD (t.columns.indexOf time_col) none)

/-- `pd.to_datetime(cell, errors='coerce')` on a cell of the raw time
column, as elapsed seconds since the epoch: a numeric value is taken as
nanoseconds since the epoch (pandas default unit), NULL and strings that
do not parse coerce to NaT (`none`).  Date-parseable strings (which do
not occur in these logs) are also modelled as NaT; no theorem relies on a
string-valued time column. -/
def pd_to_datetime_cell : Option Val → Option Rat
  | some (.num x) => some (x / 1000000000)
  | _ => none

/-- pandas `astype(str)` of a cell: NaN renders as "nan", a string is
itself, an integer-valued number is its decimal rendering.  (The
shortest-roundtrip rendering of non-integral floats and the repr of
arbitrary objects are not modelled faithfully; no theorem relies on
them.) -/
def pyStr : Option Val → String
  | none => "nan"
  | some (.num x) => if x.den = 1 then toString x.num else toString x
  | some (.vstr s _) => s
  | some .other => "object"

/-- The microsecond-branch numeric reading of one raw time cell: the
division `df[time_col] / 1_000_000` raises on a non-numeric cell and
`int(nan // 60)` raises on a NULL (NaN) cell, so both yield `none`
(surfaced as the tagged error). -/
def timeNum? : Option Val → Option Rat
  | some (.num x) => some x
  | _ => none

/-- The successful Chart Result of `get_chart_data` (src/core.py lines
405-411): the selected rows, the added datetime column (as seconds since
the epoch) and formatted-time column, the labels of those two columns,
the requested attributes and the message type. -/
structure ChartOk where
  rows : List (List (Option Val))
  elapsed : List (Option Rat)
  time_formatted : List String
  time_column : String
  time_formatted_column : String
  attributes : List String
  message_type : String
deriving Repr

/-- `get_chart_data` (src/core.py lines 368-415).  Control flow of the
source: resolve the time column (raising, hence the tagged error, when
there is none); `SELECT [time_col], [attributes...] FROM [message_type]`
with an optional `LIMIT` (an unknown column or table makes the read
raise — tagged error); return "No data found" on an empty frame; then
build the datetime and formatted columns — on a `'timeus'` time column by
dividing by 1e6 and MM:SS-formatting, otherwise by `pd.to_datetime` plus
`astype(str)`.  pandas preserves duplicate column labels, so duplicate
attribute labels flow through and succeed; but when the time column
itself is also listed among the attributes its label is duplicated,
`df[time_col]` is then a DataFrame rather than a Series, and
`pd.to_datetime` raises in both branches (tagged error), as does the
microsecond arithmetic on a non-numeric or NULL time cell. -/
def get_chart_data (store : List Table) (message_type : String)
    (attributes : List String) (limit : Option Nat) : Except String ChartOk :=
  match get_time_column_store store message_type with
  | none => .error ("No time column found for " ++ message_type)
  | some time_col =>
    match store.find? (fun t => t.name == message_type) with
    | none => .error ("no such table: " ++ message_type)
    | some t =>
      if _h : ∃ c ∈ time_col :: attributes, c ∉ t.columns then
        .error "no such column"
      else if (selectCols t (time_col :: attributes) (limitRows limit t.rows)).isEmpty then
        .error "No data found"
      else if _hdup : time_col ∈ attributes then
        .error "duplicate time column label"
      else if strContainsCI time_col "timeus" then
        match (timeCells t time_col (limitRows limit t.rows)).mapM timeNum? with
        | none => .error "time conversion error"
        | some ts =>
          .ok { rows := selectCols t (time_col :: attributes) (limitRows limit t.rows)
                elapsed := ts.map (fun v => some (v / 1000000))
                time_formatted := ts.map (fun v => format_time (v / 1000000))
                time_column := "datetime"
                time_formatted_column := "time_formatted"
                attributes := attributes
                message_type := message_type }
      else
        .ok { rows := selectCols t (time_col :: attributes) (limitRows limit t.rows)
              elapsed := (timeCells t time_col (limitRows limit t.rows)).map pd_to_datetime_cell
              time_formatted := (timeCells t time_col (limitRows limit t.rows)).map pyStr
              time_column := "datetime"
              time_formatted_column := "time_formatted"
              attributes := attributes
              message_type := message_type }

/-- A store whose only table has a time column and one row. -/
def chartTable : Table :=
  ⟨"GPS", ["TimeUS", "Alt"], [[some (.num 1000000), some (.num 7)]]⟩

def chartStore : List Table := [chartTable]

/-! ## Record Materializer -/

/-- One decoded record handed over by the decoder: its message type and
its field map (`msg.to_dict()`), an ordered mapping without duplicate
keys. -/
structure Record where
  msg_type : String
  fields : List (String × Val)
deriving DecidableEq, Repr

/-- Keep the first occurrence of every element, preserving order (Python
dict key insertion order over a stream of keys). -/
def firstSeenAux : List String → List String → List String
  | [], _ => []
  | x :: xs, seen =>
    if x ∈ seen then firstSeenAux xs seen
    else x :: firstSeenAux xs (x :: seen)

def firstSeen (l : List String) : List String := firstSeenAux l []

/-- The message-type filter of the parse loop (src/core.py lines 36-37):
`BAD_DATA` and `UNKNOWN` records are skipped. -/
def validType (s : String) : Bool := !(s == "BAD_DATA" || s == "UNKNOWN")

/-- The message types materialized by
`parse_all_mavlink_messages_to_csv`, in first-seen order (the insertion
order of the `message_files` dict). -/
def materializedTypes (records : List Record) : List String :=
  firstSeen ((records.filter (fun r => validType r.msg_type)).map (fun r => r.msg_type))

/-- The records accumulated under one message type, in arrival order
(`message_files[msg_type].append(msg.to_dict())`). -/
def recordsOf (records : List Record) (T : String) : List Record :=
  (records.filter (fun r => validType r.msg_type)).filter (fun r => r.msg_type == T)

/-- The column set `pd.DataFrame(records)` gives a list of dicts: the
union of their keys in first-seen order. -/
def unionKeys (rs : List Record) : List String :=
  firstSeen ((rs.map (fun r => r.fields.map Prod.fst)).flatten)

/-- One materialized row: the record's value under each column, `none`
(pandas NaN) where the record lacks the key. -/
def rowOf (cols : List String) (r : Record) : List (Option Val) :=
  cols.map (fun c => r.fields.lookup c)

/-- `parse_all_mavlink_messages_to_csv` (src/core.py lines 14-79), one
table per materialized message type.  The final content of each CSV is
`pd.DataFrame(records).to_csv(...)` (lines 68-73), which overwrites the
initial header written from the first record's fieldnames: the columns
are the key union over all accumulated records in first-seen order, and
every accumulated record becomes one row. -/
def materialize (records : List Record) : List Table :=
  (materializedTypes records).map (fun T =>
    { name := T
      columns := unionKeys (recordsOf records T)
      rows := (recordsOf records T).map (rowOf (unionKeys (recordsOf records T))) })

/-- The record sequence refuting the fixed-column-set claim: within one
message type, the second record carries a field "b" unknown to the first
record. -/
def cexRecords : List Record :=
  [⟨"T", [("a", .num 1)]⟩, ⟨"T", [("a", .num 2), ("b", .num 3)]⟩]

/-! ## Theorems -/

theorem columnQualifies_iff (v : List Val) :
    columnQualifies v = true ↔ specNumericCond v := by
  unfold columnQualifies specNumericCond
  by_cases h5 : v.length < 5
  · simp [h5]
  · simp only [h5, if_false]
    have h5' : 5 ≤ v.length := by omega
    by_cases h8 : (v.length : Rat) * (4 / 5) ≤ ((v.filterMap coerce?).length : Rat)
    · by_cases hd : 1 < (v.filterMap coerce?).dedup.length
      · simp [h8, hd, h5']
      · simp [h8, hd]
    · simp [h8]

theorem columnQualifies_eq_decide (v : List Val) :
    columnQualifies v = decide (specNumericCond v) := by
  by_cases h : specNumericCond v
  · simp [h, (columnQualifies_iff v).mpr h]
  · have : ¬ columnQualifies v = true := fun hc => h ((columnQualifies_iff v).mp hc)
    simp [h, Bool.not_eq_true] at this ⊢
    exact this

/-- C1: the Numeric Column Classifier qualifies a column iff its non-null
sample `V` has `|V| ≥ 5`, the float-coercible subset `N` satisfies
`|N| ≥ 0.8 × |V|` (boundary inclusive), `N` has more than one distinct
value, and the population variance of `N` is strictly positive; in
particular five identical numeric values never qualify, four non-null
values never qualify, and exactly 80 percent coercible values with
non-zero variance qualify. -/
theorem C1_numeric_classifier :
    (∀ (t : Table) (n : Nat),
      detect_numeric_columns t n =
        (t.columns.enum.filter
          (fun p => decide (specNumericCond (sampleColumn t n p.1)))).map Prod.snd)
    ∧ detect_numeric_columns constTable5 100 = []
    ∧ detect_numeric_columns fourValTable 100 = []
    ∧ detect_numeric_columns boundaryTable 100 = ["c"] := by
  have hmain : ∀ (t : Table) (n : Nat),
      detect_numeric_columns t n =
        (t.columns.enum.filter
          (fun p => decide (specNumericCond (sampleColumn t n p.1)))).map Prod.snd := by
    intro t n
    unfold detect_numeric_columns
    by_cases hrows : (t.rows.take n).isEmpty
    · have hcol : ∀ i, sampleColumn t n i = [] := by
        intro i
        simp [sampleColumn, List.isEmpty_iff.mp hrows]
      rw [if_pos hrows]
      symm
      rw [List.map_eq_nil_iff, List.filter_eq_nil_iff]
      intro p _
      simp [hcol, specNumericCond]
    · rw [if_neg hrows]
      congr 1
      apply List.filter_congr
      intro p _
      exact columnQualifies_eq_decide _
  have henum1 : constTable5.columns.enum = [(0, "c")] := rfl
  have henum2 : fourValTable.columns.enum = [(0, "c")] := rfl
  have henum3 : boundaryTable.columns.enum = [(0, "c")] := rfl
  refine ⟨hmain, ?_, ?_, ?_⟩
  · rw [hmain, henum1]
    have hs : sampleColumn constTable5 100 0 =
        [.num 7, .num 7, .num 7, .num 7, .num 7] := rfl
    have hnot : ¬ specNumericCond (sampleColumn constTable5 100 0) := by
      rw [hs]
      rintro ⟨-, -, hd, -⟩
      revert hd
      decide
    simp [hnot]
  · rw [hmain, henum2]
    have hs : sampleColumn fourValTable 100 0 =
        [.num 1, .num 2, .num 3, .num 4] := rfl
    have hnot : ¬ specNumericCond (sampleColumn fourValTable 100 0) := by
      rw [hs]
      rintro ⟨h5, -, -, -⟩
      simp at h5
    simp [hnot]
  · rw [hmain, henum3]
    have hs : sampleColumn boundaryTable 100 0 =
        [.num 1, .num 2, .num 3, .num 4, .vstr "x" none] := rfl
    have hN : (sampleColumn boundaryTable 100 0).filterMap coerce? =
        [1, 2, 3, 4] := by rw [hs]; rfl
    have hcond : specNumericCond (sampleColumn boundaryTable 100 0) := by
      refine ⟨by rw [hs]; simp, ?_, ?_, ?_⟩
      · rw [hN, hs]
        norm_num
      · rw [hN]
        decide
      · rw [hN]
        norm_num [popVar]
    simp [hcond]

/-- Index characterization of `List.find?`: it returns `a` exactly when
`a` sits at some position whose predecessors all fail the predicate. -/
theorem find?_eq_some_iff_idx {α : Type} (p : α → Bool) (d : α) :
    ∀ (l : List α) (a : α),
      l.find? p = some a ↔
        ∃ i, i < l.length ∧ l.getD i d = a ∧ p a = true ∧
          ∀ j, j < i → p (l.getD j d) = false := by
  intro l
  induction l with
  | nil => simp
  | cons x xs ih =>
    intro a
    by_cases hx : p x
    · rw [List.find?_cons_of_pos _ hx]
      constructor
      · intro h
        have hxa : x = a := by simpa using h
        subst hxa
        exact ⟨0, by simp, by simp, hx, fun j hj => absurd hj (by omega)⟩
      · rintro ⟨i, hi, hget, hpa, hprev⟩
        cases i with
        | zero =>
          simp only [List.getD_cons_zero] at hget
          rw [hget]
        | succ n =>
          have := hprev 0 (by omega)
          simp only [List.getD_cons_zero] at this
          rw [hx] at this
          cases this
    · rw [List.find?_cons_of_neg _ hx]
      rw [ih a]
      constructor
      · rintro ⟨i, hi, hget, hpa, hprev⟩
        refine ⟨i + 1, by simpa using hi, by simpa using hget, hpa, ?_⟩
        intro j hj
        cases j with
        | zero => simpa using hx
        | succ m =>
          simpa using hprev m (by omega)
      · rintro ⟨i, hi, hget, hpa, hprev⟩
        cases i with
        | zero =>
          simp only [List.getD_cons_zero] at hget
          subst hget
          exact absurd hpa (by simpa using hx)
        | succ n =>
          refine ⟨n, by simpa using hi, by simpa using hget, hpa, ?_⟩
          intro j hj
          simpa using hprev (j + 1) (by omega)

theorem findTimeIn_eq_some_iff (pats cols : List String) (c : String) :
    findTimeIn pats cols = some c ↔
      ∃ i, i < pats.length ∧
        cols.find? (fun col => strContainsCI col (pats.getD i "")) = some c ∧
        ∀ j, j < i →
          cols.find? (fun col => strContainsCI col (pats.getD j "")) = none := by
  induction pats with
  | nil => simp [findTimeIn]
  | cons p ps ih =>
    rw [findTimeIn]
    cases hfind : cols.find? (fun col => strContainsCI col p) with
    | some c0 =>
      simp only []
      constructor
      · intro h
        have hc : c0 = c := by simpa using h
        subst hc
        refine ⟨0, by simp, by simpa using hfind, ?_⟩
        intro j hj
        omega
      · rintro ⟨i, hi, hget, hprev⟩
        cases i with
        | zero =>
          simp only [List.getD_cons_zero] at hget
          rw [hfind] at hget
          simpa using hget
        | succ n =>
          have := hprev 0 (by omega)
          simp only [List.getD_cons_zero] at this
          rw [hfind] at this
          cases this
    | none =>
      simp only []
      rw [ih]
      constructor
      · rintro ⟨i, hi, hget, hprev⟩
        refine ⟨i + 1, by simpa using hi, by simpa using hget, ?_⟩
        intro j hj
        cases j with
        | zero => simpa using hfind
        | succ m => simpa using hprev m (by omega)
      · rintro ⟨i, hi, hget, hprev⟩
        cases i with
        | zero =>
          simp only [List.getD_cons_zero] at hget
          rw [hfind] at hget
          cases hget
        | succ n =>
          refine ⟨n, by simpa using hi, by simpa using hget, ?_⟩
          intro j hj
          simpa using hprev (j + 1) (by omega)

theorem findTimeIn_eq_none_iff (pats cols : List String) :
    findTimeIn pats cols = none ↔
      ∀ p ∈ pats, ∀ col ∈ cols, ¬ strContainsCI col p := by
  induction pats with
  | nil => simp [findTimeIn]
  | cons p ps ih =>
    rw [findTimeIn]
    cases hfind : cols.find? (fun col => strContainsCI col p) with
    | some c0 =>
      simp only []
      constructor
      · intro h
        cases h
      · intro h
        have := List.find?_some hfind
        have hmem := List.mem_of_find?_eq_some hfind
        exact absurd this (by simpa using h p (by simp) c0 hmem)
    | none =>
      simp only [ih]
      have hnone := List.find?_eq_none.mp hfind
      constructor
      · intro h
        intro q hq col hcol
        rcases List.mem_cons.mp hq with rfl | hq'
        · simpa using hnone col hcol
        · exact h q hq' col hcol
      · intro h q hq col hcol
        exact h q (by simp [hq]) col hcol

theorem findTimeIn_mem (pats cols : List String) (c : String)
    (h : findTimeIn pats cols = some c) : c ∈ cols := by
  induction pats with
  | nil => simp [findTimeIn] at h
  | cons p ps ih =>
    rw [findTimeIn] at h
    cases hfind : cols.find? (fun col => strContainsCI col p) with
    | some c0 =>
      rw [hfind] at h
      have hc : c0 = c := by simpa using h
      subst hc
      exact List.mem_of_find?_eq_some hfind
    | none =>
      rw [hfind] at h
      exact ih h

/-- C3: the Time Column Resolver walks the fixed priority-ordered pattern
list `["TimeUS", "timestamp", "time_boot_ms", "time", "Time"]` and returns
the first column, in stored column order, containing the current pattern
case-insensitively; pattern priority outranks column order (for
`["foo_time_boot_ms", "TimeUS"]` it returns `"TimeUS"`), and it returns
none exactly when no pattern matches any column. -/
theorem C3_time_resolver :
    (∀ (cols : List String) (c : String),
      get_time_column cols = some c ↔
        ∃ i, i < time_patterns.length ∧
          cols.find? (fun col => strContainsCI col (time_patterns.getD i "")) = some c ∧
          ∀ j, j < i →
            cols.find? (fun col => strContainsCI col (time_patterns.getD j "")) = none)
    ∧ (∀ cols : List String,
        get_time_column cols = none ↔
          ∀ p ∈ time_patterns, ∀ col ∈ cols, ¬ strContainsCI col p)
    ∧ get_time_column ["foo_time_boot_ms", "TimeUS"] = some "TimeUS" := by
  refine ⟨?_, ?_, ?_⟩
  · intro cols c
    exact findTimeIn_eq_some_iff time_patterns cols c
  · intro cols
    exact findTimeIn_eq_none_iff time_patterns cols
  · decide

/-- C10: `get_time_column` returns either a column actually present in the
named table or none; a non-existent table (or any introspection failure,
caught by the blanket handler) yields none, the same value as the
legitimate no-time-column outcome — so callers cannot distinguish the two
cases. -/
theorem C10_time_column_total :
    (∀ (store : List Table) (name c : String),
      get_time_column_store store name = some c →
        ∃ t ∈ store, t.name = name ∧ c ∈ t.columns)
    ∧ (∀ (store : List Table) (name : String),
        store.find? (fun t => t.name == name) = none →
          get_time_column_store store name = none)
    ∧ get_time_column_store noTimeStore "GPS" = none
    ∧ get_time_column_store noTimeStore "MISSING" = none := by
  refine ⟨?_, ?_, ?_, ?_⟩
  · intro store name c h
    unfold get_time_column_store at h
    cases hfind : store.find? (fun t => t.name == name) with
    | some t =>
      rw [hfind] at h
      refine ⟨t, List.mem_of_find?_eq_some hfind, ?_, ?_⟩
      · have := List.find?_some hfind
        simpa using this
      · exact findTimeIn_mem _ _ _ h
    | none =>
      rw [hfind] at h
      simp [get_time_column, findTimeIn] at h
  · intro store name h
    unfold get_time_column_store
    rw [h]
    rfl
  · decide
  · decide

/-- Witness for C10 at a concrete store: applies the theorem with the
hypotheses discharged on explicit inputs. -/
theorem C10_time_column_total_witness :
    get_time_column_store [] "ATT" = none
    ∧ get_time_column_store noTimeStore "GPS" = get_time_column_store noTimeStore "MISSING" := by
  refine ⟨C10_time_column_total.2.1 [] "ATT" rfl, ?_⟩
  rw [C10_time_column_total.2.2.1, C10_time_column_total.2.2.2]

/-- A `getD` at an in-range index is a member of the list. -/
theorem getD_mem_of_lt {α : Type} (l : List α) (i : Nat) (d : α)
    (h : i < l.length) : l.getD i d ∈ l := by
  rw [List.getD_eq_getElem?_getD, List.getElem?_eq_getElem h]
  exact List.getElem_mem h

/-- C9: the Semantic Annotator returns the `(unit, description)` payload of
the first pattern (in the fixed written order) whose substring occurs in
the lower-cased name — so the earlier generic `"roll"` shadows the later
`"rollspeed"` — and otherwise falls back to an empty unit with the
title-cased, underscore-to-space name.  It is a total function, hence
returns exactly one pair for every input. -/
theorem C9_semantic_annotator :
    (∀ (column_name u d : String),
      infer_units_and_descriptions column_name = (u, d) ↔
        ((∃ i, i < unitPatterns.length ∧
            charsContain (pyLower column_name).data
              ((unitPatterns.getD i ("", "", "")).1).data = true ∧
            (unitPatterns.getD i ("", "", "")).2 = (u, d) ∧
            ∀ j, j < i →
              charsContain (pyLower column_name).data
                ((unitPatterns.getD j ("", "", "")).1).data = false) ∨
          ((∀ e ∈ unitPatterns,
              ¬ charsContain (pyLower column_name).data e.1.data) ∧
            (u, d) = ("", pyTitle (underscoresToSpaces column_name)))))
    ∧ infer_units_and_descriptions "rollspeed" = ("degrees", "Roll angle")
    ∧ infer_units_and_descriptions "xyzzy_col" = ("", "Xyzzy Col") := by
  refine ⟨?_, by decide, by decide⟩
  intro column_name u d
  cases hfind : unitPatterns.find?
      (fun e => charsContain (pyLower column_name).data e.1.data) with
  | some e =>
    have hval : infer_units_and_descriptions column_name = e.2 := by
      unfold infer_units_and_descriptions
      rw [hfind]
    rw [hval]
    rw [find?_eq_some_iff_idx _ ("", "", "") unitPatterns e] at hfind
    obtain ⟨i, hi, hget, hpe, hprev⟩ := hfind
    have hpe' : charsContain (pyLower column_name).data
        ((unitPatterns.getD i ("", "", "")).1).data = true := by
      rw [hget]
      exact hpe
    constructor
    · intro h
      left
      refine ⟨i, hi, hpe', ?_, ?_⟩
      · rw [hget, h]
      · intro j hj
        exact hprev j hj
    · rintro (⟨i', hi', hc', hpay', hprev'⟩ | ⟨hnone, -⟩)
      · have hii : i = i' := by
          rcases Nat.lt_trichotomy i i' with h | h | h
          · have hx := hprev' i h
            rw [hx] at hpe'
            cases hpe'
          · exact h
          · have hx := hprev i' h
            simp only [] at hx
            rw [hx] at hc'
            cases hc'
        subst hii
        rw [hget] at hpay'
        exact hpay'
      · exact absurd hpe' (hnone _ (getD_mem_of_lt _ _ _ hi))
  | none =>
    have hval : infer_units_and_descriptions column_name =
        ("", pyTitle (underscoresToSpaces column_name)) := by
      unfold infer_units_and_descriptions
      rw [hfind]
    rw [hval]
    have hnone := List.find?_eq_none.mp hfind
    constructor
    · intro h
      right
      exact ⟨fun e he => by simpa using hnone e he, h.symm⟩
    · rintro (⟨i, hi, hc, -, -⟩ | ⟨-, hfb⟩)
      · exact absurd hc (hnone _ (getD_mem_of_lt _ _ _ hi))
      · rw [hfb]

theorem format_time_eval (sec : Rat) (m r : Int) (hm : ⌊sec / 60⌋ = m)
    (hr : ⌊sec - 60 * (m : Rat)⌋ = r) :
    format_time sec = toString m ++ ":" ++ pad2 r := by
  unfold format_time
  rw [hm, hr]

theorem intCast_toString (n : Nat) : toString ((n : Nat) : Int) = toString n := rfl

/-- Floor of a nonnegative rational division of naturals is natural
division. -/
theorem floor_natCast_div (a b : Nat) :
    (⌊(a : Rat) / (b : Rat)⌋ : Int) = ((a / b : Nat) : Int) := by
  have h0 : (0 : Rat) ≤ (a : Rat) / (b : Rat) := by positivity
  rw [← Int.natCast_floor_eq_floor h0]
  norm_cast

/-- C6: the microsecond formatted string is
`"{minutes}:{remainder:02d}"` with `seconds = v / 1e6`,
`minutes = floor(seconds / 60)` (equivalently `v / 60000000` in integer
division) and `remainder = floor(seconds mod 60)` (equivalently
`(v / 1000000) % 60`), minutes growing without an hour rollover; in
particular 125_000_000 formats as "2:05", 59_000_000 as "0:59" and
3_600_000_000 as "60:00". -/
theorem C6_mmss_format :
    (∀ v : Nat,
      (convert_timeus_to_datetime_and_format (v : Rat)).2 =
        toString (v / 60000000) ++ ":" ++ pad2 ((v / 1000000 % 60 : Nat) : Int))
    ∧ (∀ v : Nat,
      (convert_timeus_to_datetime_and_format (v : Rat)).1 = (v : Rat) / 1000000)
    ∧ (convert_timeus_to_datetime_and_format 125000000).2 = "2:05"
    ∧ (convert_timeus_to_datetime_and_format 59000000).2 = "0:59"
    ∧ (convert_timeus_to_datetime_and_format 3600000000).2 = "60:00" := by
  have hgen : ∀ v : Nat,
      (convert_timeus_to_datetime_and_format (v : Rat)).2 =
        toString (v / 60000000) ++ ":" ++ pad2 ((v / 1000000 % 60 : Nat) : Int) := by
    intro v
    unfold convert_timeus_to_datetime_and_format
    have hsec : (v : Rat) / 1000000 / 60 = (v : Rat) / 60000000 := by
      rw [div_div]
      norm_num
    have hm : (⌊(v : Rat) / 1000000 / 60⌋ : Int) = ((v / 60000000 : Nat) : Int) := by
      rw [hsec]
      have := floor_natCast_div v 60000000
      rw [← this]
      norm_num
    have hr : ⌊(v : Rat) / 1000000 - 60 * (((v / 60000000 : Nat) : Int) : Rat)⌋ =
        ((v / 1000000 % 60 : Nat) : Int) := by
      obtain ⟨k, r, hkr, hrlt⟩ : ∃ k r, v = 60000000 * k + r ∧ r < 60000000 :=
        ⟨v / 60000000, v % 60000000, by omega, Nat.mod_lt _ (by norm_num)⟩
      have hk : v / 60000000 = k := by omega
      have hmod : v / 1000000 % 60 = r / 1000000 := by omega
      rw [hk, hmod]
      have hsub : (v : Rat) / 1000000 - 60 * ((((k : Nat) : Int)) : Rat) =
          (r : Rat) / 1000000 := by
        have hv : (v : Rat) = 60000000 * (k : Rat) + (r : Rat) := by
          exact_mod_cast congrArg (Nat.cast : Nat → Rat) hkr
        push_cast
        rw [hv]
        field_simp
        ring
      rw [hsub]
      exact_mod_cast floor_natCast_div r 1000000
    rw [format_time_eval _ _ _ hm hr, intCast_toString]
  refine ⟨hgen, ?_, ?_, ?_, ?_⟩
  · intro v
    rfl
  · have h := hgen 125000000
    norm_num at h
    rw [h]
    rfl
  · have h := hgen 59000000
    norm_num at h
    rw [h]
    rfl
  · have h := hgen 3600000000
    norm_num at h
    rw [h]
    rfl

/-- C5 counterexample: for the non-microsecond time column
`"time_boot_ms"` and raw value 2_000_000_000 the code does NOT pass the
raw value through as the elapsed value — `pd.to_datetime` reinterprets the
integer as nanoseconds since the epoch, yielding 2 seconds, not
2_000_000_000; only the string form is the raw value unchanged. -/
theorem C5_counterexample :
    strContainsCI "time_boot_ms" "timeus" = false
    ∧ (chartTimeOfInt "time_boot_ms" 2000000000).1 ≠ ((2000000000 : Int) : Rat)
    ∧ (chartTimeOfInt "time_boot_ms" 2000000000).2 = toString (2000000000 : Int) := by
  refine ⟨by decide, ?_, ?_⟩
  · have h : (chartTimeOfInt "time_boot_ms" 2000000000).1 =
        (2000000000 : Rat) / 1000000000 := by
      unfold chartTimeOfInt
      rw [if_neg (by decide)]
      unfold pd_to_datetime_int
      norm_num
    rw [h]
    norm_num
  · unfold chartTimeOfInt
    rw [if_neg (by decide)]

/-- C5 amended: for a microsecond-counter time base the elapsed value is
the raw value divided by 1_000_000 (with the MM:SS string); for every
non-microsecond time base the string form is the unchanged decimal
rendering of the raw value, but the elapsed (datetime) value is the raw
integer reinterpreted as nanoseconds since the epoch — raw / 1e9 elapsed
seconds — not the raw value passed through. -/
theorem C5_time_normalizer_amended :
    (∀ (time_col : String) (v : Int), strContainsCI time_col "timeus" = true →
      chartTimeOfInt time_col v =
        ((v : Rat) / 1000000, format_time ((v : Rat) / 1000000)))
    ∧ (∀ (time_col : String) (v : Int), strContainsCI time_col "timeus" = false →
      chartTimeOfInt time_col v = ((v : Rat) / 1000000000, toString v)) := by
  constructor
  · intro time_col v h
    unfold chartTimeOfInt
    rw [if_pos h]
    rfl
  · intro time_col v h
    unfold chartTimeOfInt
    rw [if_neg (by rw [h]; exact Bool.false_ne_true)]
    rfl

/-- Witness for the amended C5 at concrete inputs. -/
theorem C5_time_normalizer_amended_witness :
    chartTimeOfInt "TimeUS" 125000000 = (125, "2:05")
    ∧ chartTimeOfInt "time_boot_ms" 2000000000 = (2, "2000000000") := by
  constructor
  · rw [C5_time_normalizer_amended.1 "TimeUS" 125000000 (by decide)]
    have h1 : ((125000000 : Int) : Rat) / 1000000 = 125 := by norm_num
    rw [h1]
    have h2 : format_time 125 = "2:05" := by
      rw [format_time_eval 125 2 5 (by norm_num) (by norm_num)]
      rfl
    rw [h2]
  · rw [C5_time_normalizer_amended.2 "time_boot_ms" 2000000000 (by decide)]
    have h1 : ((2000000000 : Int) : Rat) / 1000000000 = 2 := by norm_num
    rw [h1]
    rfl

theorem buildDescriptor_eq_some (store : List Table) (t : Table)
    (entry : String × AttrDescriptor)
    (hf : buildDescriptor store t = some entry) :
    entry.1 = t.name ∧ t.rows.length ≠ 0 ∧
      ∃ tc, get_time_column_store store t.name = some tc ∧ tc ≠ "" ∧
        (detect_numeric_columns_store store t.name).filter (fun col => col ≠ tc) ≠ [] ∧
        entry.2.time_col = tc ∧
        entry.2.attributes =
          (detect_numeric_columns_store store t.name).filter (fun col => col ≠ tc) ∧
        entry.2.row_count = t.rows.length := by
  unfold buildDescriptor at hf
  by_cases h1 : t.rows.length = 0
  · rw [if_pos h1] at hf
    cases hf
  · rw [if_neg h1] at hf
    cases htc : get_time_column_store store t.name with
    | none =>
      rw [htc] at hf
      cases hf
    | some tc =>
      rw [htc] at hf
      dsimp only at hf
      by_cases h2 : tc = ""
      · rw [if_pos h2] at hf
        cases hf
      · rw [if_neg h2] at hf
        by_cases h3 : (detect_numeric_columns_store store t.name).isEmpty
        · rw [if_pos h3] at hf
          cases hf
        · rw [if_neg h3] at hf
          by_cases h4 : ((detect_numeric_columns_store store t.name).filter
              (fun col => col ≠ tc)).isEmpty
          · rw [if_pos h4] at hf
            cases hf
          · rw [if_neg h4] at hf
            have he := Option.some.inj hf
            rw [← he]
            refine ⟨rfl, h1, tc, rfl, h2, ?_, rfl, rfl, rfl⟩
            intro hnil
            rw [hnil] at h4
            exact h4 rfl

/-- C2: every Attribute Descriptor emitted by the catalog builder has its
time column outside its attribute list, a non-empty attribute list and a
positive row count; and (for a store with distinct table names, as SQLite
guarantees) a table with zero rows, no resolvable time column, or no
numeric column other than its time column contributes no entry to the
result mapping. -/
theorem C2_catalog_invariants :
    (∀ (store : List Table) (entry : String × AttrDescriptor),
      entry ∈ get_all_dynamic_attributes store →
        entry.2.time_col ∉ entry.2.attributes
        ∧ entry.2.attributes ≠ []
        ∧ 0 < entry.2.row_count)
    ∧ (∀ (store : List Table) (t : Table),
        (store.map Table.name).Nodup → t ∈ store →
        (t.rows.length = 0
          ∨ get_time_column_store store t.name = none
          ∨ (∃ tc, get_time_column_store store t.name = some tc ∧
              (detect_numeric_columns_store store t.name).filter
                (fun col => col ≠ tc) = [])) →
        t.name ∉ (get_all_dynamic_attributes store).map Prod.fst) := by
  constructor
  · intro store entry hmem
    obtain ⟨t, ht, hf⟩ := List.mem_filterMap.mp hmem
    obtain ⟨-, h1, tc, htc, -, hne, htcol, hattrs, hrc⟩ :=
      buildDescriptor_eq_some store t entry hf
    refine ⟨?_, ?_, ?_⟩
    · rw [htcol, hattrs]
      intro hmem'
      have := (List.mem_filter.mp hmem').2
      simp at this
    · rw [hattrs]
      exact hne
    · rw [hrc]
      omega
  · intro store t hnodup ht hcond hmem
    obtain ⟨entry, hentry, hname⟩ := List.mem_map.mp hmem
    obtain ⟨t', ht', hf⟩ := List.mem_filterMap.mp hentry
    obtain ⟨hn1, h1, tc, htc, -, hne, -, -, -⟩ :=
      buildDescriptor_eq_some store t' entry hf
    have htt : t' = t := by
      have hinj := List.inj_on_of_nodup_map hnodup
      exact hinj ht' ht (by rw [← hn1, hname])
    subst htt
    rcases hcond with hc | hc | ⟨tc', htc', hfil⟩
    · exact h1 hc
    · rw [htc] at hc
      cases hc
    · rw [htc] at htc'
      have heq : tc = tc' := Option.some.inj htc'
      subst heq
      exact hne hfil

/-- Witness for C2 at a concrete store: the zero-row table "EMPTY"
produces no catalog entry; the theorem is applied with its hypotheses
discharged concretely. -/
theorem C2_catalog_invariants_witness :
    "EMPTY" ∉ (get_all_dynamic_attributes catalogStore).map Prod.fst :=
  C2_catalog_invariants.2 catalogStore ⟨"EMPTY", ["TimeUS"], []⟩
    (by decide) (by decide) (Or.inl rfl)

theorem mapM_option_forall2 {α β : Type} (f : α → Option β) :
    ∀ (l : List α) (res : List β), l.mapM f = some res →
      List.Forall₂ (fun a b => f a = some b) l res := by
  intro l
  induction l with
  | nil =>
    intro res h
    rw [List.mapM_nil] at h
    have : res = [] := (Option.some.inj h).symm
    rw [this]
    exact List.Forall₂.nil
  | cons x xs ih =>
    intro res h
    rw [List.mapM_cons] at h
    cases hfx : f x with
    | none =>
      rw [hfx] at h
      cases h
    | some b =>
      rw [hfx] at h
      cases hrest : xs.mapM f with
      | none =>
        rw [hrest] at h
        cases h
      | some bs =>
        rw [hrest] at h
        have : res = b :: bs := (Option.some.inj h).symm
        rw [this]
        exact List.Forall₂.cons hfx (ih bs hrest)

theorem forall2_mem_left {α β : Type} {R : α → β → Prop} :
    ∀ {l : List α} {res : List β}, List.Forall₂ R l res →
      ∀ a ∈ l, ∃ b ∈ res, R a b := by
  intro l res h
  induction h with
  | nil => intro a ha; cases ha
  | cons hr _ ih =>
    intro a ha
    rcases List.mem_cons.mp ha with rfl | ha'
    · exact ⟨_, by simp, hr⟩
    · obtain ⟨b, hb, hrb⟩ := ih a ha'
      exact ⟨b, by simp [hb], hrb⟩

theorem forall2_map_fst {α β : Type} {f : α → Option (α × β)}
    (hf : ∀ a b, f a = some b → b.1 = a) :
    ∀ {l : List α} {res : List (α × β)},
      List.Forall₂ (fun a b => f a = some b) l res → res.map Prod.fst = l := by
  intro l res h
  induction h with
  | nil => rfl
  | cons hr _ ih =>
    simp only [List.map_cons, ih]
    rw [hf _ _ hr]

theorem rat_min?_eq_some_iff (xs : List Rat) (a : Rat) :
    xs.min? = some a ↔ a ∈ xs ∧ ∀ b ∈ xs, a ≤ b :=
  List.min?_eq_some_iff (fun a => le_refl a) (fun a b => min_choice a b)
    (fun _ _ _ => le_min_iff)

theorem rat_max?_eq_some_iff (xs : List Rat) (a : Rat) :
    xs.max? = some a ↔ a ∈ xs ∧ ∀ b ∈ xs, b ≤ a :=
  List.max?_eq_some_iff (fun a => le_refl a) (fun a b => max_choice a b)
    (fun _ _ _ => max_le_iff)

/-- Properties of one aggregate record, stated through the claim's
formulas: count is the non-null count; the mean satisfies
`mean * count = sum`; min and max are attained lower and upper bounds of
the values; the (squared) sample standard deviation satisfies
`stdSq * (count - 1) = sum of squared deviations from the mean`. -/
theorem statsOf_spec (nums : List Rat) :
    (statsOf nums).count = nums.length
    ∧ (nums ≠ [] → ∃ m, (statsOf nums).mean = some m ∧
        m * (nums.length : Rat) = nums.sum)
    ∧ (nums ≠ [] → ∃ mn, (statsOf nums).min = some mn ∧
        mn ∈ nums ∧ ∀ x ∈ nums, mn ≤ x)
    ∧ (nums ≠ [] → ∃ mx, (statsOf nums).max = some mx ∧
        mx ∈ nums ∧ ∀ x ∈ nums, x ≤ mx)
    ∧ (2 ≤ nums.length → ∃ v, (statsOf nums).stdSq = some v ∧
        v * ((nums.length : Rat) - 1) =
          (nums.map (fun x => (x - nums.sum / (nums.length : Rat)) ^ 2)).sum) := by
  refine ⟨rfl, ?_, ?_, ?_, ?_⟩
  · intro hne
    have hlen : nums.length ≠ 0 := by
      intro h
      exact hne (List.length_eq_zero.mp h)
    refine ⟨nums.sum / (nums.length : Rat), ?_, ?_⟩
    · unfold statsOf
      simp [hlen]
    · have : ((nums.length : Rat)) ≠ 0 := by
        exact_mod_cast hlen
      field_simp
  · intro hne
    cases hmin : nums.min? with
    | none => exact absurd (List.min?_eq_none_iff.mp hmin) hne
    | some mn =>
      obtain ⟨hmem, hle⟩ := (rat_min?_eq_some_iff nums mn).mp hmin
      exact ⟨mn, by unfold statsOf; simpa using hmin, hmem, hle⟩
  · intro hne
    cases hmax : nums.max? with
    | none =>
      have : nums = [] := by
        have := congrArg Option.isSome hmax
        rcases nums with - | ⟨y, ys⟩
        · rfl
        · rw [List.max?_cons] at hmax
          cases hmax
      exact absurd this hne
    | some mx =>
      obtain ⟨hmem, hle⟩ := (rat_max?_eq_some_iff nums mx).mp hmax
      exact ⟨mx, by unfold statsOf; simpa using hmax, hmem, hle⟩
  · intro h2
    have hlt : ¬ nums.length < 2 := by omega
    refine ⟨(nums.map (fun x => (x - nums.sum / (nums.length : Rat)) ^ 2)).sum /
      ((nums.length : Rat) - 1), ?_, ?_⟩
    · unfold statsOf
      simp [hlt]
    · have hne1 : ((nums.length : Rat)) - 1 ≠ 0 := by
        have : (2 : Rat) ≤ (nums.length : Rat) := by exact_mod_cast h2
        intro hz
        rw [sub_eq_zero] at hz
        rw [hz] at this
        norm_num at this
      field_simp

/-- C7: on a successful statistics query the output maps exactly the
requested attributes, each to the mean, sample standard deviation, min,
max and non-null count of its column over all rows (no sampling); an
attribute can only be omitted when absent from the result set (which
holds the requested columns exactly); an empty result set yields the
tagged "No data found" failure; and for attribute values `[1, 2, 3]` the
result has mean 2, min 1, max 3, count 3. -/
theorem C7_statistics :
    (∀ (store : List Table) (mt : String) (attrs : List String) (t : Table)
        (l : List (String × ColStats)),
      store.find? (fun tb => tb.name == mt) = some t →
      calculate_data_statistics store mt attrs = .ok l →
        l.map Prod.fst = attrs ∧
        ∀ a ∈ attrs, ∃ nums s,
          colNums? (colCells t a) = some nums ∧ (a, s) ∈ l ∧
          s.count = nums.length ∧
          (nums ≠ [] → ∃ m, s.mean = some m ∧ m * (nums.length : Rat) = nums.sum) ∧
          (nums ≠ [] → ∃ mn, s.min = some mn ∧ mn ∈ nums ∧ ∀ x ∈ nums, mn ≤ x) ∧
          (nums ≠ [] → ∃ mx, s.max = some mx ∧ mx ∈ nums ∧ ∀ x ∈ nums, x ≤ mx) ∧
          (2 ≤ nums.length → ∃ v, s.stdSq = some v ∧
            v * ((nums.length : Rat) - 1) =
              (nums.map (fun x => (x - nums.sum / (nums.length : Rat)) ^ 2)).sum))
    ∧ (∀ (store : List Table) (mt : String) (attrs : List String) (t : Table),
        store.find? (fun tb => tb.name == mt) = some t →
        ¬ attrs.isEmpty → (¬ ∃ a ∈ attrs, a ∉ t.columns) → t.rows = [] →
        calculate_data_statistics store mt attrs = .error "No data found")
    ∧ (∃ l s, calculate_data_statistics statsStore "M" ["x"] = .ok l ∧
        ("x", s) ∈ l ∧ s.mean = some 2 ∧ s.min = some 1 ∧ s.max = some 3 ∧
        s.count = 3) := by
  refine ⟨?_, ?_, ?_⟩
  · intro store mt attrs t l hfind hok
    unfold calculate_data_statistics at hok
    by_cases hemp : attrs.isEmpty
    · rw [if_pos hemp] at hok
      cases hok
    · rw [if_neg hemp, hfind] at hok
      dsimp only at hok
      by_cases hcols : ∃ a ∈ attrs, a ∉ t.columns
      · rw [dif_pos hcols] at hok
        cases hok
      · rw [dif_neg hcols] at hok
        by_cases hrows : t.rows.isEmpty
        · rw [if_pos hrows] at hok
          cases hok
        · rw [if_neg hrows] at hok
          by_cases hdup : ¬ attrs.Nodup
          · rw [dif_pos hdup] at hok
            cases hok
          · rw [dif_neg hdup] at hok
            cases hmap : attrs.mapM
                (fun a => (colNums? (colCells t a)).map
                  (fun nums => (a, statsOf nums))) with
            | none =>
              rw [hmap] at hok
              cases hok
            | some l' =>
              rw [hmap] at hok
              have hl : l' = l := Option.some.inj (by simpa using hok)
              subst hl
              have hforall := mapM_option_forall2 _ attrs l' hmap
              constructor
              · refine forall2_map_fst ?_ hforall
                intro a b hb
                cases hnums : colNums? (colCells t a) with
                | none => rw [hnums] at hb; cases hb
                | some nums =>
                  rw [hnums] at hb
                  have := Option.some.inj hb
                  rw [← this]
              · intro a ha
                obtain ⟨b, hbmem, hab⟩ := forall2_mem_left hforall a ha
                cases hnums : colNums? (colCells t a) with
                | none => rw [hnums] at hab; cases hab
                | some nums =>
                  rw [hnums] at hab
                  have hb : b = (a, statsOf nums) := (Option.some.inj hab).symm
                  subst hb
                  obtain ⟨hc, hm, hmn, hmx, hsd⟩ := statsOf_spec nums
                  exact ⟨nums, statsOf nums, rfl, hbmem, hc, hm, hmn, hmx, hsd⟩
  · intro store mt attrs t hfind hne hcols hrows
    unfold calculate_data_statistics
    rw [if_neg hne, hfind]
    dsimp only
    rw [dif_neg hcols, if_pos (by rw [hrows]; rfl)]
  · have hnums : colNums? (colCells statsTable "x") = some [1, 2, 3] := rfl
    have hmap : (["x"] : List String).mapM
        (fun a => (colNums? (colCells statsTable a)).map
          (fun nums => (a, statsOf nums))) = some [("x", statsOf [1, 2, 3])] := rfl
    have hcalc : calculate_data_statistics statsStore "M" ["x"] =
        .ok [("x", statsOf [1, 2, 3])] := by
      unfold calculate_data_statistics
      rw [if_neg (by decide)]
      have hfind : statsStore.find? (fun tb => tb.name == "M") = some statsTable := rfl
      rw [hfind]
      dsimp only
      rw [dif_neg (by decide), if_neg (by decide), dif_neg (by decide), hmap]
    refine ⟨[("x", statsOf [1, 2, 3])], statsOf [1, 2, 3], hcalc, by simp, ?_, ?_, ?_, rfl⟩
    · unfold statsOf
      norm_num
    · unfold statsOf
      decide
    · unfold statsOf
      decide

/-- C8 counterexample: requesting a non-existent attribute produces a
tagged failure even though the time column resolves and the table has
rows — so failures are not restricted to "no time column" and "no
data". -/
theorem C8_counterexample :
    get_chart_data chartStore "GPS" ["Bogus"] none = .error "no such column"
    ∧ get_time_column_store chartStore "GPS" = some "TimeUS"
    ∧ chartTable.rows ≠ [] := by
  refine ⟨?_, by decide, by decide⟩
  unfold get_chart_data
  have htc : get_time_column_store chartStore "GPS" = some "TimeUS" := by decide
  rw [htc]
  have hfind : chartStore.find? (fun t => t.name == "GPS") = some chartTable := rfl
  rw [hfind]
  dsimp only
  rw [dif_pos (by decide)]

/-- C8 amended: `get_chart_data` returns a tagged failure exactly when the
time column cannot be resolved ("no time column"), a selected column is
absent from the table (the SQL read fails), or the selected result set is
empty ("no data") — plus the conversion-stage failures when the time
column's label is duplicated (the time column also listed among the
attributes, so `df[time_col]` is a DataFrame and `pd.to_datetime` raises)
or a microsecond time cell is non-numeric or NULL; duplicate attribute
labels alone are preserved by pandas and succeed; otherwise it returns a
Chart Result carrying the selected rows, the datetime and formatted-time
column labels, the attributes and the message type. -/
theorem C8_chart_errors_amended :
    (∀ (store : List Table) (mt : String) (attrs : List String) (limit : Option Nat),
      get_time_column_store store mt = none →
        get_chart_data store mt attrs limit = .error ("No time column found for " ++ mt))
    ∧ (∀ (store : List Table) (mt : String) (attrs : List String) (limit : Option Nat)
        (tc : String) (t : Table),
        get_time_column_store store mt = some tc →
        store.find? (fun tb => tb.name == mt) = some t →
        (∃ c ∈ tc :: attrs, c ∉ t.columns) →
        get_chart_data store mt attrs limit = .error "no such column")
    ∧ (∀ (store : List Table) (mt : String) (attrs : List String) (limit : Option Nat)
        (tc : String) (t : Table),
        get_time_column_store store mt = some tc →
        store.find? (fun tb => tb.name == mt) = some t →
        (¬ ∃ c ∈ tc :: attrs, c ∉ t.columns) →
        limitRows limit t.rows = [] →
        get_chart_data store mt attrs limit = .error "No data found")
    ∧ (∀ (store : List Table) (mt : String) (attrs : List String) (limit : Option Nat)
        (tc : String) (t : Table),
        get_time_column_store store mt = some tc →
        store.find? (fun tb => tb.name == mt) = some t →
        (¬ ∃ c ∈ tc :: attrs, c ∉ t.columns) →
        limitRows limit t.rows ≠ [] →
        tc ∈ attrs →
        get_chart_data store mt attrs limit = .error "duplicate time column label")
    ∧ (∀ (store : List Table) (mt : String) (attrs : List String) (limit : Option Nat)
        (tc : String) (t : Table),
        get_time_column_store store mt = some tc →
        store.find? (fun tb => tb.name == mt) = some t →
        (¬ ∃ c ∈ tc :: attrs, c ∉ t.columns) →
        limitRows limit t.rows ≠ [] →
        tc ∉ attrs →
        (strContainsCI tc "timeus" = true →
          ∃ ts, (timeCells t tc (limitRows limit t.rows)).mapM timeNum? = some ts) →
        ∃ ok, get_chart_data store mt attrs limit = .ok ok ∧
          ok.rows = selectCols t (tc :: attrs) (limitRows limit t.rows) ∧
          ok.attributes = attrs ∧ ok.message_type = mt ∧
          ok.time_column = "datetime" ∧ ok.time_formatted_column = "time_formatted") := by
  refine ⟨?_, ?_, ?_, ?_, ?_⟩
  · intro store mt attrs limit htc
    unfold get_chart_data
    rw [htc]
  · intro store mt attrs limit tc t htc hfind hbad
    unfold get_chart_data
    rw [htc, hfind]
    dsimp only
    rw [dif_pos hbad]
  · intro store mt attrs limit tc t htc hfind hgood hempty
    unfold get_chart_data
    rw [htc, hfind]
    dsimp only
    rw [dif_neg hgood]
    rw [if_pos (by rw [selectCols, hempty]; rfl)]
  · intro store mt attrs limit tc t htc hfind hgood hne hin
    unfold get_chart_data
    rw [htc, hfind]
    dsimp only
    rw [dif_neg hgood]
    have hselne : ¬ (selectCols t (tc :: attrs) (limitRows limit t.rows)).isEmpty = true := by
      rw [selectCols]
      rw [List.isEmpty_iff, List.map_eq_nil_iff]
      exact hne
    rw [if_neg hselne, dif_pos hin]
  · intro store mt attrs limit tc t htc hfind hgood hne hnotin hconv
    unfold get_chart_data
    rw [htc, hfind]
    dsimp only
    rw [dif_neg hgood]
    have hselne : ¬ (selectCols t (tc :: attrs) (limitRows limit t.rows)).isEmpty = true := by
      rw [selectCols]
      rw [List.isEmpty_iff, List.map_eq_nil_iff]
      exact hne
    rw [if_neg hselne, dif_neg hnotin]
    by_cases hmicro : strContainsCI tc "timeus" = true
    · rw [if_pos hmicro]
      obtain ⟨ts, hts⟩ := hconv hmicro
      rw [hts]
      exact ⟨_, rfl, rfl, rfl, rfl, rfl, rfl⟩
    · rw [if_neg hmicro]
      exact ⟨_, rfl, rfl, rfl, rfl, rfl, rfl⟩

/-- Witness for the amended C8: a successful query on the concrete store
with a DUPLICATE attribute label (pandas keeps both columns — no error),
and the "No time column found" failure on a missing table, by direct
application of the theorem. -/
theorem C8_chart_errors_amended_witness :
    (∃ ok, get_chart_data chartStore "GPS" ["Alt", "Alt"] none = .ok ok ∧
      ok.rows = selectCols chartTable ["TimeUS", "Alt", "Alt"] (limitRows none chartTable.rows) ∧
      ok.attributes = ["Alt", "Alt"] ∧ ok.message_type = "GPS" ∧
      ok.time_column = "datetime" ∧ ok.time_formatted_column = "time_formatted")
    ∧ get_chart_data chartStore "GPS" ["TimeUS", "Alt"] none =
        .error "duplicate time column label"
    ∧ get_chart_data chartStore "MISSING" [] none =
        .error ("No time column found for " ++ "MISSING") := by
  refine ⟨?_, ?_, ?_⟩
  · exact C8_chart_errors_amended.2.2.2.2 chartStore "GPS" ["Alt", "Alt"] none "TimeUS"
      chartTable (by decide) rfl (by decide) (by decide) (by decide)
      (fun _ => ⟨[1000000], rfl⟩)
  · exact C8_chart_errors_amended.2.2.2.1 chartStore "GPS" ["TimeUS", "Alt"] none "TimeUS"
      chartTable (by decide) rfl (by decide) (by decide) (by decide)
  · exact C8_chart_errors_amended.1 chartStore "MISSING" [] none (by decide)

theorem mem_firstSeenAux (x : String) :
    ∀ (l seen : List String), x ∈ firstSeenAux l seen ↔ x ∈ l ∧ x ∉ seen := by
  intro l
  induction l with
  | nil => intro seen; simp [firstSeenAux]
  | cons y ys ih =>
    intro seen
    rw [firstSeenAux]
    by_cases hy : y ∈ seen
    · rw [if_pos hy, ih]
      constructor
      · rintro ⟨hmem, hns⟩
        exact ⟨List.mem_cons_of_mem y hmem, hns⟩
      · rintro ⟨hmem, hns⟩
        rcases List.mem_cons.mp hmem with rfl | hmem'
        · exact absurd hy hns
        · exact ⟨hmem', hns⟩
    · rw [if_neg hy]
      constructor
      · intro hmem
        rcases List.mem_cons.mp hmem with rfl | hmem'
        · exact ⟨List.mem_cons_self x ys, hy⟩
        · obtain ⟨h1, h2⟩ := (ih (y :: seen)).mp hmem'
          exact ⟨List.mem_cons_of_mem y h1,
            fun hc => h2 (List.mem_cons_of_mem y hc)⟩
      · rintro ⟨hmem, hns⟩
        rcases List.mem_cons.mp hmem with rfl | hmem'
        · exact List.mem_cons_self x _
        · by_cases hxy : x = y
          · subst hxy
            exact List.mem_cons_self x _
          · refine List.mem_cons_of_mem y ((ih (y :: seen)).mpr ⟨hmem', ?_⟩)
            intro hc
            rcases List.mem_cons.mp hc with h | h
            · exact hxy h
            · exact hns h

theorem mem_firstSeen (x : String) (l : List String) :
    x ∈ firstSeen l ↔ x ∈ l := by
  rw [firstSeen, mem_firstSeenAux]
  simp

theorem firstSeenAux_append_nodup :
    ∀ (keys rest seen : List String), keys.Nodup →
      (∀ k ∈ keys, k ∉ seen) →
      ∃ tail, firstSeenAux (keys ++ rest) seen = keys ++ tail := by
  intro keys
  induction keys with
  | nil => intro rest seen _ _; exact ⟨firstSeenAux rest seen, rfl⟩
  | cons k ks ih =>
    intro rest seen hnd hdisj
    rw [List.cons_append, firstSeenAux,
      if_neg (hdisj k (List.mem_cons_self k ks))]
    have hdisj' : ∀ k' ∈ ks, k' ∉ (k :: seen) := by
      intro k' hk' hc
      rcases List.mem_cons.mp hc with rfl | h
      · exact (List.nodup_cons.mp hnd).1 hk'
      · exact hdisj k' (List.mem_cons_of_mem k hk') h
    obtain ⟨tail, htail⟩ := ih rest (k :: seen) (List.Nodup.of_cons hnd) hdisj'
    exact ⟨tail, by rw [htail, List.cons_append]⟩

theorem lookup_eq_none_of_not_mem_keys (c : String) :
    ∀ (fields : List (String × Val)),
      c ∉ fields.map Prod.fst → fields.lookup c = none := by
  intro fields
  induction fields with
  | nil => intro _; rfl
  | cons p ps ih =>
    intro h
    have hne : (c == p.1) = false := by
      simp only [List.map_cons, List.mem_cons] at h
      simp only [beq_eq_false_iff_ne, ne_eq]
      exact fun hc => h (Or.inl hc)
    cases p with
    | mk k v =>
      rw [List.lookup]
      rw [hne]
      exact ih (fun hc => h (by simp only [List.map_cons, List.mem_cons]; exact Or.inr hc))

/-- C4 counterexample: the materializer does NOT fix the column set to the
first record's field names — `pd.DataFrame(records)` takes the key union,
so the late field "b" becomes a new column (null-filled in the earlier
row) and the table's columns are `["a", "b"]`, not `["a"]`. -/
theorem C4_counterexample :
    materialize cexRecords =
      [{ name := "T", columns := ["a", "b"],
         rows := [[some (.num 1), none], [some (.num 2), some (.num 3)]] }]
    ∧ (materialize cexRecords).map Table.columns ≠ [["a"]] := by
  constructor
  · rfl
  · intro h
    rw [show materialize cexRecords =
      [{ name := "T", columns := ["a", "b"],
         rows := [[some (.num 1), none], [some (.num 2), some (.num 3)]] }] from rfl] at h
    cases h

/-- C4 amended: the materializer fixes a table's column set to the union
of the field names of all records of that message type (first-seen
order), so fields of later records missing from the first record's field
set ARE added as new columns; the first record's field names remain an
initial segment of the columns; fields present in the column set but
absent from a record are stored as null; and no record of a materialized
type is ever discarded. -/
theorem C4_materializer_amended :
    (∀ (records : List Record) (tbl : Table), tbl ∈ materialize records →
      tbl.columns = unionKeys (recordsOf records tbl.name)
      ∧ tbl.rows.length = (recordsOf records tbl.name).length
      ∧ (∀ r ∈ recordsOf records tbl.name, ∀ p ∈ r.fields, p.1 ∈ tbl.columns)
      ∧ (∀ r ∈ recordsOf records tbl.name, rowOf tbl.columns r ∈ tbl.rows)
      ∧ (∀ r ∈ recordsOf records tbl.name, ∀ (c : String) (i : Nat),
          c ∉ r.fields.map Prod.fst → tbl.columns[i]? = some c →
          (rowOf tbl.columns r)[i]? = some none))
    ∧ (∀ (records : List Record) (T : String) (r0 : Record) (rs : List Record),
        recordsOf records T = r0 :: rs →
        (r0.fields.map Prod.fst).Nodup →
        ∃ tail, unionKeys (recordsOf records T) = r0.fields.map Prod.fst ++ tail) := by
  constructor
  · intro records tbl hmem
    obtain ⟨T, hT, htbl⟩ := List.mem_map.mp hmem
    have hname : tbl.name = T := by rw [← htbl]
    subst htbl
    dsimp only at hname ⊢
    rw [hname]
    refine ⟨rfl, by rw [List.length_map], ?_, ?_, ?_⟩
    · intro r hr p hp
      rw [unionKeys, mem_firstSeen, List.mem_flatten]
      exact ⟨r.fields.map Prod.fst, List.mem_map_of_mem _ hr, List.mem_map_of_mem _ hp⟩
    · intro r hr
      exact List.mem_map_of_mem _ hr
    · intro r hr c i hc hcol
      rw [rowOf, List.getElem?_map, hcol]
      exact congrArg some (lookup_eq_none_of_not_mem_keys c r.fields hc)
  · intro records T r0 rs hrec hnd
    rw [unionKeys, hrec]
    rw [List.map_cons, List.flatten_cons]
    exact firstSeenAux_append_nodup (r0.fields.map Prod.fst) _ [] hnd
      (fun k _ hk => absurd hk (List.not_mem_nil k))

end MavlinkLog
